import Mathlib

/-!
Verification development for the iDoE (intensified Design of Experiments) MILP
planner.  The Python sources are shallowly embedded: the constraint compiler of
`src/optimizer.py` and `streamlit_app/src/optimizer_wrapper.py` is modelled as
functions producing explicit linear rows over an inductive variable type, the
schedule extractor and the parameter manager as pure functions.  Real-valued
solver data is modelled exactly over `ℚ`; every numeric literal of the source
(`0.135`, `0.01`, …) is carried as the corresponding rational.
-/

set_option maxHeartbeats 2000000

namespace IDoE

/-- MILP decision variables of the planner: the assignment variables `x[i][j][k]`
and the C8 auxiliary binaries `z[i][p]` and `q[k][i][p]`, exactly the three
variable families created by `_create_decision_variables`. -/
inductive Var where
  | x (i j k : ℕ)
  | z (i p : ℕ)
  | q (k i p : ℕ)
deriving DecidableEq

/-- Direction of a linear constraint row. -/
inductive Sense where
  | le
  | ge
deriving DecidableEq

/-- One linear constraint row as emitted by the compiler: a list of
(coefficient, variable) terms in emission order, a sense and a right-hand
side, mirroring a pulp `LpConstraint`. -/
structure Row where
  coeffs : List (ℚ × Var)
  sense : Sense
  rhs : ℚ

/-- Value of a list of linear terms under a valuation of the variables. -/
def evalTerms (ts : List (ℚ × Var)) (v : Var → ℚ) : ℚ :=
  (ts.map fun t => t.1 * v t.2).sum

/-- Value of the left-hand side of a row under a valuation. -/
def Row.lhs (r : Row) (v : Var → ℚ) : ℚ := evalTerms r.coeffs v

/-- Satisfaction of a row under a valuation. -/
def Row.holds (r : Row) (v : Var → ℚ) : Prop :=
  match r.sense with
  | Sense.le => r.lhs v ≤ r.rhs
  | Sense.ge => r.rhs ≤ r.lhs v

theorem evalTerms_append (a b : List (ℚ × Var)) (v : Var → ℚ) :
    evalTerms (a ++ b) v = evalTerms a v + evalTerms b v := by
  simp [evalTerms]

/-! Constants of `src/config.py`. -/

/-- Big-M constant `BIG_M = 1000` of `config.py`. -/
def BIG_M : ℚ := 1000

/-- Big-L constant `BIG_L = 500` of `config.py`. -/
def BIG_L : ℚ := 500

/-- Default `NUM_STAGES = 3` of `config.py`. -/
def NUM_STAGES : ℕ := 3

/-- Default `DELTA_F_MIN_MU = 0.01` of `config.py`. -/
def DELTA_F_MIN_MU : ℚ := 1/100

/-- Default `DELTA_F_MIN_TEMP = 1` of `config.py`. -/
def DELTA_F_MIN_TEMP : ℚ := 1

/-- The default DOE factor table `FACTOR_VALUES` of `config.py`
(`[mu_set, temperature]` rows; combinations 1-3 are identical center points). -/
def FACTOR_VALUES : List (ℚ × ℚ) :=
  [(27/200, 31), (27/200, 31), (27/200, 31), (4/25, 31), (59/400, 33),
   (11/100, 31), (49/400, 29), (59/400, 29), (49/400, 33)]

/-- Accessor `factor_values[j-1, l-1]` for 1-based combination `j` and 1-based
parameter `l` over the default factor table. -/
def factorValue (j l : ℕ) : ℚ :=
  if l = 1 then (FACTOR_VALUES.getD (j - 1) (0, 0)).1
  else (FACTOR_VALUES.getD (j - 1) (0, 0)).2

/-- Number of experiments allocated by `IDOEOptimizer.__init__`:
`num_experiments = num_combinations * num_stages`. -/
def numExperiments (J K : ℕ) : ℕ := J * K

/-- Per-parameter minimum-variation bound, the pairing
`[(1, delta_f_min_mu), (2, delta_f_min_temp)]` used by `_add_constraint_c8`. -/
def deltaMin (dmu dtemp : ℚ) : ℕ → ℚ := fun l => if l = 1 then dmu else dtemp

/-- Terms of the linear expression
`sum_j factor_values[j-1,l-1]*x[i][j][k] - sum_j factor_values[j-1,l-1]*x[i][j][k+1]`
(the `diff1`/`diff2` expressions of `_add_constraint_c8`). -/
def c8DiffCoeffs (C : ℕ → ℕ → ℚ) (J i l k : ℕ) : List (ℚ × Var) :=
  ((List.range' 1 J).map fun j => (C j l, Var.x i j k)) ++
  ((List.range' 1 J).map fun j => (-(C j l), Var.x i j (k + 1)))

/-- The four Big-M rows emitted by `IDOEOptimizer._add_constraint_c8` for one
experiment `i` and one parameter `l` (the body of its inner loop, which
hard-codes stage indices 1, 2, 3). -/
def c8RowBlock (C : ℕ → ℕ → ℚ) (J : ℕ) (dmu dtemp : ℚ) (i l : ℕ) : List Row :=
  let dm := if l = 1 then dmu else dtemp
  let d1 := c8DiffCoeffs C J i l 1
  let d2 := c8DiffCoeffs C J i l 2
  [ ⟨d1 ++ [(BIG_M, Var.z i l), (BIG_L, Var.q 1 i l), (BIG_L, Var.q 2 i l)],
      Sense.ge, dm⟩,
    ⟨d1 ++ [(-BIG_M, Var.z i l), (BIG_L, Var.q 1 i l), (BIG_L, Var.q 2 i l)],
      Sense.ge, dm - BIG_M⟩,
    ⟨d2 ++ [(BIG_M, Var.z i l), (-BIG_L, Var.q 1 i l), (BIG_L, Var.q 2 i l)],
      Sense.ge, dm - BIG_L⟩,
    ⟨d2 ++ [(-BIG_M, Var.z i l), (-BIG_L, Var.q 1 i l), (BIG_L, Var.q 2 i l)],
      Sense.ge, dm - BIG_M - BIG_L⟩ ]

/-- All C8 rows emitted by `IDOEOptimizer._add_constraint_c8`: one block of
four rows for every experiment `i ∈ [1, num_experiments]` and parameter
`l ∈ {1, 2}`. -/
def c8Rows (J K : ℕ) (C : ℕ → ℕ → ℚ) (dmu dtemp : ℚ) : List Row :=
  (List.range' 1 (numExperiments J K)).flatMap fun i =>
    [1, 2].flatMap fun l => c8RowBlock C J dmu dtemp i l

/-- Per-parameter difference between consecutive stages `k` and `k+1` of run
`i`: `sum_j c_jp * (x[i,j,k] - x[i,j,k+1])`. -/
def paramDiff (C : ℕ → ℕ → ℚ) (J : ℕ) (v : Var → ℚ) (i p k : ℕ) : ℚ :=
  ∑ j ∈ Finset.range J,
    C (j + 1) p * (v (Var.x i (j + 1) k) - v (Var.x i (j + 1) (k + 1)))

/-- The C8 contract stated by the spec: some parameter varies by at least
`Δmin[p]` across some consecutive stage pair of run `i`. -/
def c8Contract (C : ℕ → ℕ → ℚ) (J K P : ℕ) (δ : ℕ → ℚ) (v : Var → ℚ) (i : ℕ) : Prop :=
  ∃ p ∈ Finset.Icc 1 P, ∃ k ∈ Finset.Icc 1 (K - 1), δ p ≤ |paramDiff C J v i p k|

/-- A 0/1 assignment to the binary variables of the compiled problem. -/
def binaryAssignment (J K P : ℕ) (v : Var → ℚ) : Prop :=
  (∀ i ∈ Finset.Icc 1 (numExperiments J K), ∀ j ∈ Finset.Icc 1 J,
    ∀ k ∈ Finset.Icc 1 K, v (Var.x i j k) = 0 ∨ v (Var.x i j k) = 1) ∧
  (∀ i ∈ Finset.Icc 1 (numExperiments J K), ∀ p ∈ Finset.Icc 1 P,
    v (Var.z i p) = 0 ∨ v (Var.z i p) = 1) ∧
  (∀ k ∈ Finset.Icc 1 (K - 1), ∀ i ∈ Finset.Icc 1 (numExperiments J K),
    ∀ p ∈ Finset.Icc 1 P, v (Var.q k i p) = 0 ∨ v (Var.q k i p) = 1)

/-- Run `i` carries at least one assignment. -/
def runNonEmpty (J K : ℕ) (v : Var → ℚ) (i : ℕ) : Prop :=
  ∃ j ∈ Finset.Icc 1 J, ∃ k ∈ Finset.Icc 1 K, v (Var.x i j k) = 1

/-- A satisfying 0/1 point for the default problem: run 1 plays the three
identical center-point combinations 1, 2, 3 at stages 1, 2, 3, and every
auxiliary `q[2][i][l]` is set to 1 (all other variables 0). -/
def v0 : Var → ℚ
  | Var.x i j k => if i = 1 ∧ j = k ∧ (j = 1 ∨ j = 2 ∨ j = 3) then 1 else 0
  | Var.z _ _ => 0
  | Var.q k _ _ => if k = 2 then 1 else 0

theorem v0_zero_or_one (w : Var) : v0 w = 0 ∨ v0 w = 1 := by
  rcases w with ⟨i, j, k⟩ | ⟨i, p⟩ | ⟨k, i, p⟩ <;> simp only [v0] <;>
    first
    | (split <;> simp)
    | simp

theorem range_nine : List.range' 1 9 = [1, 2, 3, 4, 5, 6, 7, 8, 9] := rfl

theorem evalTerms_c8Diff_v0 (i l k : ℕ) (hk : k = 1 ∨ k = 2) :
    evalTerms (c8DiffCoeffs factorValue 9 i l k) v0 = 0 := by
  rcases eq_or_ne i 1 with rfl | hi
  · rcases hk with rfl | rfl <;>
      simp [c8DiffCoeffs, range_nine, evalTerms, v0, factorValue, FACTOR_VALUES]
  · rcases hk with rfl | rfl <;>
      simp [c8DiffCoeffs, range_nine, evalTerms, v0, factorValue, FACTOR_VALUES, hi]

theorem c8RowBlock_holds_v0 (i l : ℕ) :
    ∀ r ∈ c8RowBlock factorValue 9 DELTA_F_MIN_MU DELTA_F_MIN_TEMP i l, r.holds v0 := by
  have hd1 := evalTerms_c8Diff_v0 i l 1 (Or.inl rfl)
  have hd2 := evalTerms_c8Diff_v0 i l 2 (Or.inr rfl)
  have hdm : (if l = 1 then DELTA_F_MIN_MU else DELTA_F_MIN_TEMP) ≤ 1 := by
    split <;> norm_num [DELTA_F_MIN_MU, DELTA_F_MIN_TEMP]
  intro r hr
  have haux : ∀ a b c : ℚ,
      evalTerms [(a, Var.z i l), (b, Var.q 1 i l), (c, Var.q 2 i l)] v0 = c := by
    intro a b c
    simp [evalTerms, v0]
  simp only [c8RowBlock, List.mem_cons, List.not_mem_nil, or_false] at hr
  rcases hr with rfl | rfl | rfl | rfl
  · simp only [Row.holds, Row.lhs, evalTerms_append, hd1, haux]
    norm_num [BIG_L]
    linarith
  · simp only [Row.holds, Row.lhs, evalTerms_append, hd1, haux]
    norm_num [BIG_L, BIG_M]
    linarith
  · simp only [Row.holds, Row.lhs, evalTerms_append, hd2, haux]
    norm_num [BIG_L]
    linarith
  · simp only [Row.holds, Row.lhs, evalTerms_append, hd2, haux]
    norm_num [BIG_L, BIG_M]
    linarith

theorem paramDiff_v0 (p k : ℕ) (hk : k = 1 ∨ k = 2) :
    paramDiff factorValue 9 v0 1 p k = 0 := by
  rcases hk with rfl | rfl <;>
    simp [paramDiff, Finset.sum_range_succ, v0, factorValue, FACTOR_VALUES]

/-- C1: evaluation of the emitted C8 rows at a concrete failing input.  Under
the default configuration (9 combinations, 3 stages, `M = 1000`, `L = 500`,
`Δmin = (0.01, 1)`), the 0/1 point `v0` satisfies every emitted C8 row, run 1
is non-empty, and yet no parameter varies by at least `Δmin[p]` across any
consecutive stage pair of run 1 — the Big-M encoding does not enforce the C8
contract. -/
theorem claim_C1_code_evaluation :
    binaryAssignment 9 3 2 v0 ∧
    (∀ r ∈ c8Rows 9 3 factorValue DELTA_F_MIN_MU DELTA_F_MIN_TEMP, r.holds v0) ∧
    runNonEmpty 9 3 v0 1 ∧
    ¬ c8Contract factorValue 9 3 2 (deltaMin DELTA_F_MIN_MU DELTA_F_MIN_TEMP) v0 1 := by
  refine ⟨⟨?_, ?_, ?_⟩, ?_, ?_, ?_⟩
  · intro i _ j _ k _
    exact v0_zero_or_one _
  · intro i _ p _
    exact v0_zero_or_one _
  · intro k _ i _ p _
    exact v0_zero_or_one _
  · intro r hr
    rw [c8Rows] at hr
    obtain ⟨i, _, hr⟩ := List.mem_flatMap.mp hr
    obtain ⟨l, _, hr⟩ := List.mem_flatMap.mp hr
    exact c8RowBlock_holds_v0 i l r hr
  · exact ⟨1, by decide, 1, by decide, by norm_num [v0]⟩
  · rintro ⟨p, hp, k, hk, hge⟩
    rw [Finset.mem_Icc] at hp hk
    have hk' : k = 1 ∨ k = 2 := by omega
    rw [paramDiff_v0 p k hk'] at hge
    rcases eq_or_ne p 1 with rfl | hp1
    · norm_num [deltaMin, DELTA_F_MIN_MU] at hge
    · norm_num [deltaMin, hp1, DELTA_F_MIN_TEMP] at hge

/-! Helper lemmas converting list sums over `List.range'`/`List.range` (the
loop order of the Python compiler) into `Finset.range` sums. -/

theorem sum_map_range' (f : ℕ → ℚ) :
    ∀ (n a : ℕ), ((List.range' a n).map f).sum = ∑ t ∈ Finset.range n, f (a + t)
  | 0, _ => by simp
  | n + 1, a => by
    rw [List.range'_succ, List.map_cons, List.sum_cons, sum_map_range' f n (a + 1),
      Finset.sum_range_succ', Nat.add_zero, add_comm (f a)]
    congr 1
    exact Finset.sum_congr rfl fun t _ => by congr 1; omega

theorem sum_map_range'_one (f : ℕ → ℚ) (n : ℕ) :
    ((List.range' 1 n).map f).sum = ∑ t ∈ Finset.range n, f (t + 1) := by
  rw [sum_map_range' f n 1]
  exact Finset.sum_congr rfl fun t _ => by rw [Nat.add_comm]

theorem sum_map_range (f : ℕ → ℚ) (n : ℕ) :
    ((List.range n).map f).sum = ∑ t ∈ Finset.range n, f t := by
  rw [List.range_eq_range', sum_map_range' f n 0]
  exact Finset.sum_congr rfl fun t _ => by rw [Nat.zero_add]

theorem evalTerms_flatMap {α : Type} (l : List α) (g : α → List (ℚ × Var)) (v : Var → ℚ) :
    evalTerms (l.flatMap g) v = (l.map fun a => evalTerms (g a) v).sum := by
  induction l with
  | nil => simp [evalTerms]
  | cons a t ih => simp [List.flatMap_cons, evalTerms_append, ih]

theorem evalTerms_map {α : Type} (l : List α) (g : α → ℚ × Var) (v : Var → ℚ) :
    evalTerms (l.map g) v = (l.map fun a => (g a).1 * v (g a).2).sum := by
  rw [evalTerms, List.map_map]
  rfl

/-! The objective function.  `IDOEOptimizer._add_objective_function` emits
`weights[i-1] * x[i][j][k]` over 1-based `i ∈ [1, num_experiments]`,
`j ∈ [1, J]`, `k ∈ [1, K]` with
`weights = (np.arange(1, num_experiments+1) / (num_combinations + 1)) ** 3`.
`IDOEOptimizerWrapper._add_objective` emits `weights[i] * x[i][j][k]` over
0-based indices with `weights = [(i + 1.0) / (self.num_runs + 1.0) ** 2 ...]`
(note: exponentiation binds before division, so the weight is
`(i+1) / (num_runs+1)^2`). -/

/-- Objective terms emitted by `IDOEOptimizer._add_objective_function`. -/
def objectiveTerms (J K : ℕ) : List (ℚ × Var) :=
  (List.range' 1 (numExperiments J K)).flatMap fun i =>
    (List.range' 1 J).flatMap fun j =>
      (List.range' 1 K).map fun k =>
        (((i : ℚ) / ((J : ℚ) + 1)) ^ 3, Var.x i j k)

/-- Objective terms emitted by `IDOEOptimizerWrapper._add_objective`
(0-based runs/combos/stages, `R = num_runs`). -/
def wrapperObjectiveTerms (R J K : ℕ) : List (ℚ × Var) :=
  (List.range R).flatMap fun i =>
    (List.range J).flatMap fun j =>
      (List.range K).map fun k =>
        (((i : ℚ) + 1) / (((R : ℚ) + 1) ^ 2), Var.x i j k)

/-- Modelled from the spec: the claimed weighted sum `Σ w_i · x[i,j,k]` with
`w_i = (i/(J+1))^3` where `J` is the number of combinations, evaluated over
the index space of a wrapper instance (whose 0-based run `i` is the 1-based
run `i+1`). -/
def claimedObjective (R J K : ℕ) (v : Var → ℚ) : ℚ :=
  ∑ i ∈ Finset.range R, ∑ j ∈ Finset.range J, ∑ k ∈ Finset.range K,
    (((i : ℚ) + 1) / ((J : ℚ) + 1)) ^ 3 * v (Var.x i j k)

/-- C2 counterexample: for the wrapper instance with one run, one combination
and one stage, the assembled objective under the all-ones valuation is
`1/(1+1)^2 = 1/4`, while the claimed formula `w_i = (i/(J+1))^3` gives
`(1/2)^3 = 1/8`; the two differ, so the claim fails on
`IDOEOptimizerWrapper._add_objective`. -/
theorem claim_C2_counterexample :
    evalTerms (wrapperObjectiveTerms 1 1 1) (fun _ => 1) ≠
      claimedObjective 1 1 1 (fun _ => 1) := by
  simp [wrapperObjectiveTerms, claimedObjective, evalTerms, List.range_succ]

/-- C2 amended: the objective assembled by `IDOEOptimizer` is exactly
`Σ w_i · x[i,j,k]` with `w_i = (i/(J+1))^3` over 1-based runs
`i ∈ [1, num_experiments]` (first conjunct, indices shifted by one), while
the objective assembled by `IDOEOptimizerWrapper` instead uses
`w_i = (i+1)/(num_runs+1)^2` over 0-based runs (second conjunct). -/
theorem claim_C2_amended :
    (∀ (J K : ℕ) (v : Var → ℚ),
      evalTerms (objectiveTerms J K) v =
        ∑ i ∈ Finset.range (numExperiments J K), ∑ j ∈ Finset.range J,
          ∑ k ∈ Finset.range K,
            ((((i : ℚ) + 1)) / ((J : ℚ) + 1)) ^ 3 * v (Var.x (i + 1) (j + 1) (k + 1))) ∧
    (∀ (R J K : ℕ) (v : Var → ℚ),
      evalTerms (wrapperObjectiveTerms R J K) v =
        ∑ i ∈ Finset.range R, ∑ j ∈ Finset.range J, ∑ k ∈ Finset.range K,
          (((i : ℚ) + 1) / (((R : ℚ) + 1) ^ 2)) * v (Var.x i j k)) := by
  constructor
  · intro J K v
    rw [objectiveTerms, evalTerms_flatMap, sum_map_range'_one]
    refine Finset.sum_congr rfl fun i _ => ?_
    rw [evalTerms_flatMap, sum_map_range'_one]
    refine Finset.sum_congr rfl fun j _ => ?_
    rw [evalTerms_map, sum_map_range'_one]
    refine Finset.sum_congr rfl fun k _ => ?_
    push_cast
    ring
  · intro R J K v
    rw [wrapperObjectiveTerms, evalTerms_flatMap, sum_map_range]
    refine Finset.sum_congr rfl fun i _ => ?_
    rw [evalTerms_flatMap, sum_map_range]
    refine Finset.sum_congr rfl fun j _ => ?_
    rw [evalTerms_map, sum_map_range]

/-! Solver status.  Both `IDOEOptimizer._extract_results` and
`IDOEOptimizerWrapper.optimize` set `status = pulp.LpStatus[self.problem.status]`. -/

/-- The five engine status codes of the pulp dependency
(`LpStatusOptimal`, `LpStatusNotSolved`, `LpStatusInfeasible`,
`LpStatusUnbounded`, `LpStatusUndefined`). -/
inductive SolverStatusCode where
  | optimal
  | notSolved
  | infeasible
  | unbounded
  | undefined
deriving DecidableEq

/-- Modelled from the spec section on status normalization: the source
normalizes engine states only through `pulp.LpStatus[...]`; `pulp` is an
external dependency whose `LpStatus` table (pulp/constants.py) maps the five
engine codes to exactly these strings. -/
def lpStatus : SolverStatusCode → String
  | SolverStatusCode.optimal => "Optimal"
  | SolverStatusCode.notSolved => "Not Solved"
  | SolverStatusCode.infeasible => "Infeasible"
  | SolverStatusCode.unbounded => "Unbounded"
  | SolverStatusCode.undefined => "Undefined"

/-! The schedule extractor of `IDOEOptimizer._extract_results`. -/

/-- Stage assignments extracted for experiment `i` by the loop body of
`IDOEOptimizer._extract_results`: pairs `(stage k, combination j)` collected
for `k in 1..K` and `j in 1..J` whenever `pulp.value(self.x[i][j][k]) == 1`
— an exact comparison with 1, with no rounding and no tolerance check. -/
def extractStages (J K : ℕ) (v : ℕ → ℕ → ℕ → ℚ) (i : ℕ) : List (ℕ × ℕ) :=
  (List.range' 1 K).flatMap fun k =>
    ((List.range' 1 J).filter fun j => decide (v i j k = 1)).map fun j => (k, j)

/-- Result record built by `IDOEOptimizer._extract_results`
(`OptimizationResult` of `src/models.py`; an experiment is its id paired with
its stage list). -/
structure CoreResult where
  status : String
  experiments : List (ℕ × List (ℕ × ℕ))
  objectiveValue : ℚ
  numExperimentsUsed : ℕ
  numStagesUsed : ℕ

/-- Embedding of `IDOEOptimizer._extract_results`: one experiment entry per
`i ∈ [1, num_experiments]` (appended even when its stage list is empty), the
stage-assignment counter accumulated over the same loop, and
`num_experiments_used` the number of experiments with a non-empty stage
list. -/
def extractResults (sc : SolverStatusCode) (J K : ℕ) (v : ℕ → ℕ → ℕ → ℚ)
    (obj : ℚ) : CoreResult :=
  let experiments := (List.range' 1 (numExperiments J K)).map fun i =>
    (i, extractStages J K v i)
  { status := lpStatus sc
    experiments := experiments
    objectiveValue := obj
    numExperimentsUsed := (experiments.filter fun e => !e.2.isEmpty).length
    numStagesUsed := (experiments.map fun e => e.2.length).sum }

/-- Modelled from the spec: the claimed rounding extraction.  Every solved
value is rounded to the nearest integer; extraction fails (fatal
`ExtractionError`) when some value deviates from its rounded value by more
than `1e-6`; otherwise the assignment `(k, j)` is included exactly when the
rounded value is 1. -/
def claimedExtractStages (J K : ℕ) (v : ℕ → ℕ → ℕ → ℚ) (i : ℕ) :
    Except String (List (ℕ × ℕ)) :=
  if (List.range' 1 K).all (fun k => (List.range' 1 J).all fun j =>
      decide (|v i j k - (round (v i j k) : ℚ)| ≤ 1/1000000)) then
    Except.ok ((List.range' 1 K).flatMap fun k =>
      ((List.range' 1 J).filter fun j => decide (round (v i j k) = (1 : ℤ))).map
        fun j => (k, j))
  else Except.error "ExtractionError: value deviates from an integer by more than tolerance"

/-- A solved value within `1e-7` of 1 (hence inside the claimed `1e-6`
rounding tolerance, rounding to 1) at every index. -/
def vNear : ℕ → ℕ → ℕ → ℚ := fun _ _ _ => 9999999/10000000

/-- A solved value of `0.5`, farther than `1e-6` from every integer. -/
def vHalf : ℕ → ℕ → ℕ → ℚ := fun _ _ _ => 1/2

/-- C3 counterexample: the code extractor performs no rounding and raises no
error.  At the value `0.9999999` (within the claimed tolerance, rounds to 1)
the code excludes the assignment that the claimed rounding extraction
includes; at the value `0.5` the code silently returns an empty schedule
where the claim requires a fatal error. -/
theorem claim_C3_counterexample :
    extractStages 1 1 vNear 1 = [] ∧
    claimedExtractStages 1 1 vNear 1 = Except.ok [(1, 1)] ∧
    extractStages 1 1 vHalf 1 = [] ∧
    claimedExtractStages 1 1 vHalf 1 =
      Except.error "ExtractionError: value deviates from an integer by more than tolerance" := by
  have hnear : round ((9999999 : ℚ)/10000000) = (1 : ℤ) := by
    rw [round_eq]
    norm_num
  have hhalf : round ((1 : ℚ)/2) = (1 : ℤ) := by
    rw [round_eq]
    norm_num
  refine ⟨?_, ?_, ?_, ?_⟩
  · simp [extractStages, vNear]
    norm_num
  · simp [claimedExtractStages, vNear, hnear]
    norm_num [abs_le]
  · simp [extractStages, vHalf]
  · simp [claimedExtractStages, vHalf, hhalf]
    norm_num [lt_abs]

/-- C3 amended: `IDOEOptimizer._extract_results` includes an assignment
`(k, j)` exactly when the solved value `x[i][j][k]` equals 1 exactly; it
performs no rounding, applies no tolerance, and has no error path. -/
theorem claim_C3_amended (J K : ℕ) (v : ℕ → ℕ → ℕ → ℚ) (i j k : ℕ)
    (h1 : 1 ≤ j) (h2 : j ≤ J) (h3 : 1 ≤ k) (h4 : k ≤ K) :
    (k, j) ∈ extractStages J K v i ↔ v i j k = 1 := by
  simp only [extractStages, List.mem_flatMap, List.mem_map, List.mem_filter,
    List.mem_range'_1, decide_eq_true_eq, Prod.mk.injEq]
  constructor
  · rintro ⟨k', hk', j', ⟨hj', hv⟩, rfl, rfl⟩
    exact hv
  · intro hv
    exact ⟨k, ⟨h3, by omega⟩, j, ⟨⟨h1, by omega⟩, hv⟩, rfl, rfl⟩

/-- C3 amended, instantiated: with `J = K = 1` and every solved value exactly
1, the assignment `(1, 1)` is extracted. -/
theorem claim_C3_witness : (1, 1) ∈ extractStages 1 1 (fun _ _ _ => 1) 1 :=
  (claim_C3_amended 1 1 (fun _ _ _ => 1) 1 1 1 (by decide) (by decide) (by decide)
    (by decide)).mpr rfl

/-- C5: the result of `IDOEOptimizer._extract_results` lists every experiment
id `1..num_experiments` in order (empty experiments included),
`num_experiments_used` counts exactly the non-empty experiments, and
`num_stages_used` totals the stage assignments over all experiments. -/
theorem claim_C5 (sc : SolverStatusCode) (J K : ℕ) (v : ℕ → ℕ → ℕ → ℚ) (obj : ℚ) :
    (extractResults sc J K v obj).experiments.map Prod.fst =
      List.range' 1 (numExperiments J K) ∧
    (extractResults sc J K v obj).numExperimentsUsed =
      ((List.range' 1 (numExperiments J K)).filter fun i =>
        !(extractStages J K v i).isEmpty).length ∧
    (extractResults sc J K v obj).numStagesUsed =
      ((List.range' 1 (numExperiments J K)).map fun i =>
        (extractStages J K v i).length).sum := by
  refine ⟨?_, ?_, ?_⟩
  · simp only [extractResults, List.map_map]
    exact List.map_id _
  · simp only [extractResults, List.filter_map, List.length_map]
    rfl
  · simp [extractResults, List.map_map]
    rfl

/-! The streamlit wrapper (`streamlit_app/src/optimizer_wrapper.py`). -/

/-- The `Constraints` dataclass of the wrapper (only the fields read by
`_generate_infeasibility_hints` and the extraction path are carried;
per-parameter dictionaries are association lists). -/
structure Constraints where
  c2_enabled : Bool := true
  c4_enabled : Bool := true
  c4_max_global : ℕ := 2
  c5_enabled : Bool := true
  c6_enabled : Bool := true
  c6_target_stages : ℕ := 2
  c7_enabled : Bool := true
  c7_max_changes : Option (List (String × ℚ)) := none
  c8_enabled : Bool := true
  c8_min_changes : Option (List (String × ℚ)) := none

/-- Python truthiness of an optional dictionary: `None` and an empty
dictionary are falsy, a non-empty dictionary is truthy. -/
def pyTruthy {α : Type} (o : Option (List α)) : Bool :=
  match o with
  | none => false
  | some l => !l.isEmpty

/-- The default `Constraints()` configuration. -/
def defaultConstraints : Constraints := {}

/-- Embedding of `IDOEOptimizerWrapper._generate_infeasibility_hints`: six
conditional hints from static inspection of the configuration, followed by
two hints appended unconditionally.  (The decorative emoji prefixes of the
source strings are omitted.) -/
def generateInfeasibilityHints (cfg : Constraints) (nCombos nRuns nStages : ℕ) :
    List String :=
  (if cfg.c5_enabled && decide (nRuns * nStages < nCombos) then
    ["You have " ++ toString nCombos ++ " combinations but only " ++
      toString (nRuns * nStages) ++ " total stage slots. Try increasing number of runs."]
   else []) ++
  (if cfg.c2_enabled && decide (nRuns < nCombos) then
    ["C2 (unique combo per stage position) may be too restrictive. Try disabling C2."]
   else []) ++
  (if cfg.c7_enabled && pyTruthy cfg.c7_max_changes then
    ["C7 (max step changes) may be too restrictive. Try increasing the allowed step sizes."]
   else []) ++
  (if cfg.c8_enabled && pyTruthy cfg.c8_min_changes then
    ["C8 (min total changes) may be too demanding. Try reducing the minimum required changes."]
   else []) ++
  (if cfg.c6_enabled && decide (1 < cfg.c6_target_stages) then
    ["C6 requires each combo in " ++ toString cfg.c6_target_stages ++
      " different stages, which may be infeasible. Try reducing target stages."]
   else []) ++
  (if cfg.c4_enabled && decide (cfg.c4_max_global < 2) then
    ["C4 (max global repeats) = 1 combined with C5 and C6 may be impossible. Try allowing 2 repeats."]
   else []) ++
  ["Try increasing the number of runs", "Try increasing stages per run"]

/-- Embedding of `IDOEOptimizerWrapper._extract_assignments`: for every
0-based run `i`, the first combination `j` with value 1 at each stage (the
inner loop breaks after the first hit); runs whose assignment list is empty
are omitted from the returned dictionary. -/
def extractAssignments (J K R : ℕ) (v : ℕ → ℕ → ℕ → ℚ) : List (ℕ × List ℕ) :=
  (List.range R).filterMap fun i =>
    let ra := (List.range K).filterMap fun k =>
      (List.range J).find? fun j => decide (v i j k = 1)
    if ra.isEmpty then none else some (i, ra)

/-- Result record returned by `IDOEOptimizerWrapper.optimize`
(`OptimizationResult` of `optimizer_wrapper.py`). -/
structure WrapperResult where
  status : String
  feasible : Bool
  runs_used : ℕ
  total_stages : ℕ
  objective_value : ℚ
  assignments : List (ℕ × List ℕ)
  infeasibility_hints : List String

/-- Embedding of the post-solve logic of `IDOEOptimizerWrapper.optimize`:
the engine outcome is the status code `sc` and the solved values `v`;
`status = pulp.LpStatus[...]`, `feasible = status in ["Optimal", "Feasible"]`,
and the two branches fill the result exactly as the source does. -/
def wrapperOptimize (sc : SolverStatusCode) (cfg : Constraints) (J R K : ℕ)
    (v : ℕ → ℕ → ℕ → ℚ) (obj : ℚ) : WrapperResult :=
  if lpStatus sc = "Optimal" ∨ lpStatus sc = "Feasible" then
    { status := lpStatus sc
      feasible := true
      runs_used := (extractAssignments J K R v).length
      total_stages := ((extractAssignments J K R v).map fun a => a.2.length).sum
      objective_value := obj
      assignments := extractAssignments J K R v
      infeasibility_hints := [] }
  else
    { status := lpStatus sc
      feasible := false
      runs_used := 0
      total_stages := 0
      objective_value := 0
      assignments := []
      infeasibility_hints := generateInfeasibilityHints cfg J R K }

theorem wrapperOptimize_status (sc : SolverStatusCode) (cfg : Constraints)
    (J R K : ℕ) (v : ℕ → ℕ → ℕ → ℚ) (obj : ℚ) :
    (wrapperOptimize sc cfg J R K v obj).status = lpStatus sc := by
  rw [wrapperOptimize]
  split <;> rfl

theorem generateInfeasibilityHints_ne_nil (cfg : Constraints) (nCombos nRuns nStages : ℕ) :
    generateInfeasibilityHints cfg nCombos nRuns nStages ≠ [] := by
  apply List.ne_nil_of_length_pos
  rw [generateInfeasibilityHints]
  simp only [List.length_append, List.length_cons, List.length_nil]
  omega

/-- C4 counterexample: when the engine reports code `LpStatusNotSolved`
(e.g. on time-limit exhaustion with no incumbent), both the wrapper result
and the core result carry the status string "Not Solved", which is outside
the claimed normalized set. -/
theorem claim_C4_counterexample :
    (wrapperOptimize SolverStatusCode.notSolved defaultConstraints 1 1 1
        (fun _ _ _ => 0) 0).status ∉
      (["Optimal", "Feasible", "Infeasible", "TimeLimit", "Error"] : List String) ∧
    (extractResults SolverStatusCode.notSolved 9 3 (fun _ _ _ => 0) 0).status ∉
      (["Optimal", "Feasible", "Infeasible", "TimeLimit", "Error"] : List String) := by
  rw [wrapperOptimize_status]
  constructor <;> simp [extractResults, lpStatus]

/-- C4 amended: the status returned by either optimizer is always one of the
five pulp `LpStatus` strings Optimal, Not Solved, Infeasible, Unbounded,
Undefined; the claimed values Feasible, TimeLimit and Error are never
produced. -/
theorem claim_C4_amended (sc : SolverStatusCode) (cfg : Constraints)
    (J R K J2 K2 : ℕ) (v v2 : ℕ → ℕ → ℕ → ℚ) (obj obj2 : ℚ) :
    (wrapperOptimize sc cfg J R K v obj).status ∈
      (["Optimal", "Not Solved", "Infeasible", "Unbounded", "Undefined"] : List String) ∧
    (extractResults sc J2 K2 v2 obj2).status ∈
      (["Optimal", "Not Solved", "Infeasible", "Unbounded", "Undefined"] : List String) := by
  rw [wrapperOptimize_status]
  cases sc <;> constructor <;> simp [extractResults, lpStatus]

/-- C6: whenever the wrapper status is neither Optimal nor Feasible the
returned result has zero runs used, zero total stages, an empty assignment
map and a non-empty infeasibility hint list; whenever the status is Optimal
or Feasible the hint list is empty. -/
theorem claim_C6 (sc : SolverStatusCode) (cfg : Constraints) (J R K : ℕ)
    (v : ℕ → ℕ → ℕ → ℚ) (obj : ℚ) :
    ((lpStatus sc ≠ "Optimal" ∧ lpStatus sc ≠ "Feasible") →
      (wrapperOptimize sc cfg J R K v obj).runs_used = 0 ∧
      (wrapperOptimize sc cfg J R K v obj).total_stages = 0 ∧
      (wrapperOptimize sc cfg J R K v obj).assignments = [] ∧
      (wrapperOptimize sc cfg J R K v obj).infeasibility_hints ≠ []) ∧
    ((lpStatus sc = "Optimal" ∨ lpStatus sc = "Feasible") →
      (wrapperOptimize sc cfg J R K v obj).infeasibility_hints = []) := by
  constructor
  · intro h
    have hcond : ¬(lpStatus sc = "Optimal" ∨ lpStatus sc = "Feasible") := by
      tauto
    rw [wrapperOptimize, if_neg hcond]
    exact ⟨rfl, rfl, rfl, generateInfeasibilityHints_ne_nil cfg J R K⟩
  · intro h
    rw [wrapperOptimize, if_pos h]

/-- C6, instantiated at a concrete infeasible outcome: with engine code
`LpStatusInfeasible` and the default configuration, the wrapper returns zero
runs, zero stages, no assignments and a non-empty hint list. -/
theorem claim_C6_witness :
    (wrapperOptimize SolverStatusCode.infeasible defaultConstraints 1 1 1
        (fun _ _ _ => 0) 0).runs_used = 0 ∧
    (wrapperOptimize SolverStatusCode.infeasible defaultConstraints 1 1 1
        (fun _ _ _ => 0) 0).total_stages = 0 ∧
    (wrapperOptimize SolverStatusCode.infeasible defaultConstraints 1 1 1
        (fun _ _ _ => 0) 0).assignments = [] ∧
    (wrapperOptimize SolverStatusCode.infeasible defaultConstraints 1 1 1
        (fun _ _ _ => 0) 0).infeasibility_hints ≠ [] :=
  (claim_C6 SolverStatusCode.infeasible defaultConstraints 1 1 1
    (fun _ _ _ => 0) 0).1 (by simp [lpStatus])

/-! Repetition targets (`config.get_repetition_targets`) and the C6 rows. -/

/-- The stage-weight dictionary `STAGE_WEIGHTS` of `config.py` maps stages
1, 2, 3 each to weight 1; modelled as the constant function 1 (the compiler
reads only keys `1..num_stages`). -/
def STAGE_WEIGHTS : ℕ → ℚ := fun _ => 1

/-- The dictionary comprehension `targets = (j : 2 for j in 1..J)` of
`get_repetition_targets`, as a total function agreeing with it on its keys. -/
def repetitionTargetsBase (_J : ℕ) : ℕ → ℕ := fun _ => 2

/-- Embedding of `config.get_repetition_targets`: every combination gets
target 2, then combinations 1, 2, 3 are overridden to 1. -/
def get_repetition_targets (J : ℕ) : ℕ → ℕ :=
  fun j => if j = 1 ∨ j = 2 ∨ j = 3 then 1 else repetitionTargetsBase J j

/-- The C6 row emitted for combination `j` by
`IDOEOptimizer._add_constraint_c6`: the stage-weighted sum of `x[i][j][k]`
over all experiments and stages is at least `repetition_targets[j]`. -/
def c6Row (J K : ℕ) (j : ℕ) : Row :=
  { coeffs := (List.range' 1 (numExperiments J K)).flatMap fun i =>
      (List.range' 1 K).map fun k => (STAGE_WEIGHTS k, Var.x i j k)
    sense := Sense.ge
    rhs := (get_repetition_targets J j : ℚ) }

/-- All C6 rows, one per combination `j ∈ [1, J]`. -/
def c6Rows (J K : ℕ) : List Row := (List.range' 1 J).map (c6Row J K)

/-- C7: for `J ≥ 3` combinations, the default per-combination C6 target is 1
for combinations 1, 2, 3 and 2 for every other combination, and the compiled
C6 row for combination `j` holds under a valuation exactly when the
stage-weighted sum of `x` over all runs and stages is at least `t6[j]`. -/
theorem claim_C7 (J : ℕ) (_hJ : 3 ≤ J) (j : ℕ) (h1 : 1 ≤ j) (h2 : j ≤ J)
    (K : ℕ) (v : Var → ℚ) :
    get_repetition_targets J j = (if j ≤ 3 then 1 else 2) ∧
    c6Row J K j ∈ c6Rows J K ∧
    ((c6Row J K j).holds v ↔
      (get_repetition_targets J j : ℚ) ≤
        ∑ i ∈ Finset.range (numExperiments J K), ∑ k ∈ Finset.range K,
          STAGE_WEIGHTS (k + 1) * v (Var.x (i + 1) j (k + 1))) := by
  refine ⟨?_, ?_, ?_⟩
  · by_cases hj3 : j ≤ 3
    · have hj : j = 1 ∨ j = 2 ∨ j = 3 := by omega
      simp [get_repetition_targets, hj, hj3]
    · have hj : ¬(j = 1 ∨ j = 2 ∨ j = 3) := by omega
      simp [get_repetition_targets, repetitionTargetsBase, hj, hj3]
  · simp only [c6Rows, List.mem_map]
    exact ⟨j, by simp [List.mem_range'_1]; omega, rfl⟩
  · have hlhs : Row.lhs (c6Row J K j) v =
        ∑ i ∈ Finset.range (numExperiments J K), ∑ k ∈ Finset.range K,
          STAGE_WEIGHTS (k + 1) * v (Var.x (i + 1) j (k + 1)) := by
      rw [Row.lhs]
      simp only [c6Row]
      rw [evalTerms_flatMap, sum_map_range'_one]
      refine Finset.sum_congr rfl fun i _ => ?_
      rw [evalTerms_map, sum_map_range'_one]
    rw [show (c6Row J K j).holds v =
      ((get_repetition_targets J j : ℚ) ≤ Row.lhs (c6Row J K j) v) from rfl, hlhs]

/-- C7, instantiated: with `J = 4` combinations the target of combination 4
is 2, and its C6 row fails under the all-zero valuation. -/
theorem claim_C7_witness :
    get_repetition_targets 4 4 = 2 ∧ ¬ (c6Row 4 3 4).holds (fun _ => 0) := by
  have h := claim_C7 4 (by decide) 4 (by decide) (by decide) 3 (fun _ => 0)
  constructor
  · rw [h.1]
    decide
  · rw [h.2.2, h.1]
    simp

/-! The parameter manager (`streamlit_app/src/parameter_manager.py`).
Parameter values, floats in the source, are modelled over `ℚ`. -/

/-- A single experimental parameter (`Parameter` of `parameter_manager.py`). -/
structure Parameter where
  name : String
  units : String
  values : List ℚ

/-- The `Parameter` constructor stores `sorted(values)`. -/
def mkParameter (name units : String) (values : List ℚ) : Parameter :=
  { name := name, units := units, values := values.mergeSort }

/-- Embedding of `ParameterManager.get_num_combinations`: 0 for an empty
manager, otherwise the product of the per-parameter value counts. -/
def get_num_combinations (ps : List Parameter) : ℕ :=
  if ps.isEmpty then 0 else (ps.map fun p => p.values.length).prod

/-- The Cartesian product computed by `itertools.product`: the leftmost list
varies slowest, exactly the iteration order of the library function. -/
def itertoolsProduct : List (List ℚ) → List (List ℚ)
  | [] => [[]]
  | l :: ls => l.flatMap fun a => (itertoolsProduct ls).map fun rest => a :: rest

/-- Embedding of `ParameterManager.generate_combinations`: an empty array
for an empty manager, otherwise `itertools.product` of the stored value
lists. -/
def generate_combinations (ps : List Parameter) : List (List ℚ) :=
  if ps.isEmpty then [] else itertoolsProduct (ps.map fun p => p.values)

/-- Embedding of `ParameterManager.remove_parameter`: pops the entry only
when `0 <= index < len(parameters)`, otherwise leaves the list unchanged
(and never raises). -/
def remove_parameter (ps : List Parameter) (index : ℤ) : List Parameter :=
  if 0 ≤ index ∧ index < ps.length then ps.eraseIdx index.toNat else ps

/-- The per-parameter checks of `ParameterManager.validate`, in source order:
missing name, empty value list, duplicate values (`set` comparison). -/
def paramCheck (i : ℕ) (p : Parameter) : Option (Bool × String) :=
  if p.name = "" then
    some (false, "Parameter " ++ toString (i + 1) ++ " must have a name")
  else if p.values.isEmpty then
    some (false, "Parameter " ++ p.name ++ " must have at least one value")
  else if p.values.length ≠ p.values.dedup.length then
    some (false, "Parameter " ++ p.name ++ " has duplicate values")
  else none

/-- Embedding of `ParameterManager.validate`: empty-manager check, then the
per-parameter checks in order, then uniqueness of names, then the
200-combination cap, and finally success. -/
def validate (ps : List Parameter) : Bool × String :=
  if ps.isEmpty then (false, "Please add at least one parameter")
  else
    (ps.enum.findSome? fun ip => paramCheck ip.1 ip.2).getD
      (if (ps.map fun p => p.name).length ≠ (ps.map fun p => p.name).dedup.length then
        (false, "Parameter names must be unique")
      else if 200 < get_num_combinations ps then
        (false, "Too many combinations (" ++ toString (get_num_combinations ps) ++
          "). Consider reducing parameter values or number of parameters.")
      else (true, ""))

theorem paramCheck_fst_false (i : ℕ) (p : Parameter) (r : Bool × String)
    (h : paramCheck i p = some r) : r.1 = false := by
  rw [paramCheck] at h
  split_ifs at h <;> simp_all <;> exact h ▸ rfl

/-- C8: every configuration whose total combination count exceeds 200 is
rejected by `ParameterManager.validate` (first component `False`), even when
every individual parameter is well-formed; the 200 cap appears nowhere in
the spec. -/
theorem claim_C8 (ps : List Parameter) (h : 200 < get_num_combinations ps) :
    (validate ps).1 = false := by
  rw [validate]
  by_cases hemp : ps.isEmpty
  · rw [if_pos hemp]
  · rw [if_neg hemp]
    cases hfind : ps.enum.findSome? (fun ip => paramCheck ip.1 ip.2) with
    | some r =>
        rw [Option.getD_some]
        obtain ⟨ip, _, hpc⟩ := List.exists_of_findSome?_eq_some hfind
        exact paramCheck_fst_false ip.1 ip.2 r hpc
    | none =>
        rw [Option.getD_none]
        by_cases hdup :
          (ps.map fun p => p.name).length ≠ (ps.map fun p => p.name).dedup.length
        · rw [if_pos hdup]
        · rw [if_neg hdup, if_pos h]

/-- Two well-formed parameters with 15 distinct values each: 225 > 200
combinations. -/
def psBig : List Parameter :=
  [mkParameter "a" "" [0, 1, 2, 3, 4, 5, 6, 7, 8, 9, 10, 11, 12, 13, 14],
   mkParameter "b" "" [15, 16, 17, 18, 19, 20, 21, 22, 23, 24, 25, 26, 27, 28, 29]]

/-- C8, instantiated: the 15 × 15 configuration has 225 combinations and is
rejected. -/
theorem claim_C8_witness :
    200 < get_num_combinations psBig ∧ (validate psBig).1 = false := by
  have h : 200 < get_num_combinations psBig := by
    simp [get_num_combinations, psBig, mkParameter, List.length_mergeSort]
  exact ⟨h, claim_C8 psBig h⟩

/-- C9: `remove_parameter` with an out-of-range (including negative) index
leaves the parameter list unchanged and raises nothing; an in-range index
removes exactly the parameter at that position. -/
theorem claim_C9 (ps : List Parameter) (index : ℤ) :
    (¬(0 ≤ index ∧ index < ps.length) → remove_parameter ps index = ps) ∧
    (0 ≤ index → index < ps.length →
      remove_parameter ps index =
        ps.take index.toNat ++ ps.drop (index.toNat + 1)) := by
  constructor
  · intro h
    rw [remove_parameter, if_neg h]
  · intro h1 h2
    rw [remove_parameter, if_pos ⟨h1, h2⟩]
    exact List.eraseIdx_eq_take_drop_succ ..

/-- C9, instantiated on a two-parameter manager: index 5 is a no-op, index 0
removes the first parameter. -/
theorem claim_C9_witness :
    remove_parameter [mkParameter "a" "" [1], mkParameter "b" "" [2]] 5 =
      [mkParameter "a" "" [1], mkParameter "b" "" [2]] ∧
    remove_parameter [mkParameter "a" "" [1], mkParameter "b" "" [2]] 0 =
      [mkParameter "b" "" [2]] := by
  constructor
  · exact (claim_C9 [mkParameter "a" "" [1], mkParameter "b" "" [2]] 5).1
      (by simp)
  · rw [(claim_C9 [mkParameter "a" "" [1], mkParameter "b" "" [2]] 0).2
      (by simp) (by simp)]
    rfl

theorem itertoolsProduct_length :
    ∀ ls : List (List ℚ), (itertoolsProduct ls).length = (ls.map List.length).prod := by
  intro ls
  induction ls with
  | nil => simp [itertoolsProduct]
  | cons l ls ih =>
      simp [itertoolsProduct, List.length_flatMap, Function.comp_def,
        List.length_map, ih, List.map_const', List.sum_replicate, smul_eq_mul]

theorem itertoolsProduct_mem (ls : List (List ℚ)) (xs : List ℚ) :
    xs ∈ itertoolsProduct ls ↔ List.Forall₂ (fun a l => a ∈ l) xs ls := by
  induction ls generalizing xs with
  | nil => simp [itertoolsProduct, List.forall₂_nil_right_iff]
  | cons l ls ih =>
      simp only [itertoolsProduct, List.mem_flatMap, List.mem_map,
        List.forall₂_cons_right_iff, ih]
      constructor
      · rintro ⟨a, ha, ys, hys, rfl⟩
        exact ⟨a, ys, ha, hys, rfl⟩
      · rintro ⟨a, ys, ha, hys, rfl⟩
        exact ⟨a, ha, ys, hys, rfl⟩

/-- C10: for a non-empty manager, `generate_combinations` returns exactly the
Cartesian product of the per-parameter value lists (membership
characterization), its row count equals `get_num_combinations`, and the
stored value lists are sorted by construction. -/
theorem claim_C10 (ps : List Parameter) (h : ps ≠ []) :
    (∀ xs, xs ∈ generate_combinations ps ↔
      List.Forall₂ (fun a p => a ∈ p.values) xs ps) ∧
    (generate_combinations ps).length = get_num_combinations ps ∧
    (∀ name units values, ((mkParameter name units values).values).Sorted (· ≤ ·)) := by
  have hne : ps.isEmpty = false := by
    simp [List.isEmpty_iff, h]
  refine ⟨?_, ?_, ?_⟩
  · intro xs
    rw [generate_combinations, if_neg (by simp [hne]), itertoolsProduct_mem]
    exact List.forall₂_map_right_iff
  · rw [generate_combinations, if_neg (by simp [hne]), itertoolsProduct_length,
      get_num_combinations, if_neg (by simp [hne]), List.map_map]
    rfl
  · intro name units values
    exact List.sorted_mergeSort' values

/-- C10, instantiated: a two-parameter manager with 2 × 3 values yields 6
combination rows. -/
theorem claim_C10_witness :
    (generate_combinations
      [mkParameter "a" "" [1, 2], mkParameter "b" "" [3, 4, 5]]).length =
    get_num_combinations [mkParameter "a" "" [1, 2], mkParameter "b" "" [3, 4, 5]] :=
  (claim_C10 [mkParameter "a" "" [1, 2], mkParameter "b" "" [3, 4, 5]]
    (List.cons_ne_nil _ _)).2.1

end IDoE
